import Mathlib

/-
  Verification of the swarm-tools storage engine against its specification.

  Shallow embedding: the TypeScript modules under src/ are translated into
  Lean definitions.  SQL tables become association lists keyed by their
  primary key, recursive CTEs become depth-indexed frontier functions,
  transactions become explicit state passing where a failed statement
  either leaves the prior auto-committed writes in place (no BEGIN) or
  restores the initial state (BEGIN/ROLLBACK), and host primitives
  (JSON.parse, PostgreSQL ts_rank, pgvector cosine distance, Date parsing)
  are oracle parameters.
-/

-- ============================================================================
-- Association-list tables (SQL tables keyed by a primary key)
-- ============================================================================

/-- Lookup of a row by primary key. -/
def alookup {α : Type} (m : List (String × α)) (k : String) : Option α :=
  (m.find? (fun p => p.1 == k)).map (fun p => p.2)

/-- INSERT ... ON CONFLICT (pk) DO UPDATE: if a row with key k exists it is
updated in place by f, otherwise the fresh row ins is appended.  Keys are
unique (primary key), so updating the first occurrence is exhaustive. -/
def aupdate {α : Type} (m : List (String × α)) (k : String) (f : α → α) (ins : α) :
    List (String × α) :=
  match m with
  | [] => [(k, ins)]
  | p :: rest => if p.1 == k then (k, f p.2) :: rest else p :: aupdate rest k f ins

/-- Plain upsert: INSERT ... ON CONFLICT (pk) DO UPDATE SET row = new row. -/
def aupsert {α : Type} (m : List (String × α)) (k : String) (v : α) : List (String × α) :=
  aupdate m k (fun _ => v) v

/-- DELETE FROM table WHERE pk = k. -/
def adelete {α : Type} (m : List (String × α)) (k : String) : List (String × α) :=
  m.filter (fun p => p.1 != k)

-- ============================================================================
-- Dependency graph (swarm-mail beads/dependencies.ts)
-- ============================================================================

/-- A row of the bead_dependencies table. -/
structure DepEdge where
  bead_id : String
  depends_on_id : String
  relationship : String
deriving DecidableEq

def MAX_DEPENDENCY_DEPTH : Nat := 100

/-- The rows of the recursive CTE in wouldCreateCycle, indexed by depth:
cteFrontier edges start d holds the edge rows the CTE derives at depth d+1.
Depth 0 is the base case (edges whose bead_id is the start node); depth d+1
joins on rows of depth d.  The CTE has no relationship filter: it follows
every dependency edge. -/
def cteFrontier (edges : List DepEdge) (start : String) : Nat → List DepEdge
  | 0 => edges.filter (fun e => e.bead_id == start)
  | d + 1 => edges.filter (fun e =>
      (cteFrontier edges start d).any (fun p => p.depends_on_id == e.bead_id))

/-- wouldCreateCycle(db, beadId, dependsOnId): recursive CTE from dependsOnId
over all dependency edges, depth-bounded by MAX_DEPENDENCY_DEPTH; returns
whether any derived row exists with depends_on_id = beadId. -/
def wouldCreateCycle (edges : List DepEdge) (beadId dependsOnId : String) : Bool :=
  (List.range MAX_DEPENDENCY_DEPTH).any (fun d =>
    (cteFrontier edges dependsOnId d).any (fun e => e.depends_on_id == beadId))

/-- There is a walk of exactly d dependency edges (any relationship) from
start to t in the edge list. -/
def reachN (edges : List DepEdge) (start : String) : Nat → String → Prop
  | 0, t => start = t
  | d + 1, t => ∃ e, e ∈ edges ∧ reachN edges start d e.bead_id ∧ e.depends_on_id = t

-- ============================================================================
-- C2: the guarded dependency add admits a self-dependency
-- ============================================================================

/-- Modelled from the spec: the bead_dependency_added projection handler
(beads/projections.ts is not in the sources; the spec says "reject with
Cycle if would_create_cycle; insert row").  The guard is the source
wouldCreateCycle above. -/
def addDependencyGuarded (edges : List DepEdge) (beadId dependsOnId relationship : String) :
    Except String (List DepEdge) :=
  if wouldCreateCycle edges beadId dependsOnId then Except.error "Cycle"
  else Except.ok (edges ++ [⟨beadId, dependsOnId, relationship⟩])

/-- The subgraph of edges whose relationship is 'blocks'. -/
def blocksEdges (edges : List DepEdge) : List DepEdge :=
  edges.filter (fun e => e.relationship == "blocks")

/-- The blocks subgraph has a cycle: some node reaches itself by a nonempty
walk over blocks edges. -/
def HasBlocksCycle (edges : List DepEdge) : Prop :=
  ∃ n d, 1 ≤ d ∧ reachN (blocksEdges edges) n d n

-- ============================================================================
-- C4: invalidateBlockedCache (beads/dependencies.ts)
-- ============================================================================

/-- A row of the beads projection table (the fields the dependency module
reads). -/
structure BeadRow where
  id : String
  project_key : String
  status : String
  deleted_at : Option Int
deriving DecidableEq

/-- The database state the dependency module operates on. -/
structure GraphDb where
  beads : List BeadRow
  deps : List DepEdge
  blocked_beads_cache : List (String × List String)
deriving DecidableEq

/-- The rows of the recursive CTE in getOpenBlockers, indexed by depth:
blockerFrontier deps beadId d holds the blocker ids derived at depth d+1.
Unlike wouldCreateCycle, this CTE follows only 'blocks' edges. -/
def blockerFrontier (deps : List DepEdge) (beadId : String) : Nat → List String
  | 0 => (deps.filter (fun e => e.bead_id == beadId && e.relationship == "blocks")).map
      (fun e => e.depends_on_id)
  | d + 1 => (deps.filter (fun e => e.relationship == "blocks" &&
      (blockerFrontier deps beadId d).contains e.bead_id)).map
      (fun e => e.depends_on_id)

/-- getOpenBlockers(db, projectKey, beadId): DISTINCT blocker ids from the
depth-bounded blocks CTE, joined against beads and filtered to rows of the
project that are not closed and not soft-deleted. -/
def getOpenBlockers (db : GraphDb) (projectKey beadId : String) : List String :=
  (((List.range MAX_DEPENDENCY_DEPTH).flatMap
      (fun d => blockerFrontier db.deps beadId d)).filter
    (fun bid => db.beads.any (fun b => b.id == bid && b.project_key == projectKey &&
      b.status != "closed" && b.deleted_at.isNone))).dedup

/-- rebuildBeadBlockedCache: recompute open blockers; upsert the cache row
if nonempty, delete it otherwise. -/
def rebuildBeadBlockedCache (db : GraphDb) (projectKey beadId : String) : GraphDb :=
  if 0 < (getOpenBlockers db projectKey beadId).length then
    { db with blocked_beads_cache :=
        aupsert db.blocked_beads_cache beadId (getOpenBlockers db projectKey beadId) }
  else
    { db with blocked_beads_cache := adelete db.blocked_beads_cache beadId }

/-- The beads that directly depend on beadId: SELECT bead_id FROM
bead_dependencies WHERE depends_on_id = beadId (note: no relationship
filter, no project filter, and no transitive closure). -/
def directDependents (deps : List DepEdge) (beadId : String) : List String :=
  (deps.filter (fun e => e.depends_on_id == beadId)).map (fun e => e.bead_id)

/-- invalidateBlockedCache: rebuild the cache row for beadId, then rebuild
for each DIRECT dependent of beadId. -/
def invalidateBlockedCache (db : GraphDb) (projectKey beadId : String) : GraphDb :=
  (directDependents (rebuildBeadBlockedCache db projectKey beadId).deps beadId).foldl
    (fun s bid => rebuildBeadBlockedCache s projectKey bid)
    (rebuildBeadBlockedCache db projectKey beadId)

/-- What a fresh recomputation of the cache row for a bead yields: the open
blockers if any, otherwise no row (absence means unblocked). -/
def freshCacheRow (db : GraphDb) (projectKey beadId : String) : Option (List String) :=
  if 0 < (getOpenBlockers db projectKey beadId).length then
    some (getOpenBlockers db projectKey beadId)
  else none

-- ============================================================================
-- C1: appendBeadEvent (swarm-mail beads/store.ts)
-- ============================================================================

/-- The common fields of a bead event as passed to appendBeadEvent; data
stands for the JSON serialization of the remaining type-specific fields. -/
structure BeadEventIn where
  type : String
  project_key : String
  timestamp : Int
  data : String
deriving DecidableEq

/-- A row of the events table. -/
structure EventRow where
  id : Nat
  type : String
  project_key : String
  timestamp : Int
  sequence : Nat
  data : String
deriving DecidableEq

/-- The database state appendBeadEvent operates on: the events table plus
the projection tables (abstracted as σ, since beads/projections.ts only
consumes the inserted row). nextId and nextSequence model the
autoincrement id and the monotonically assigned sequence returned by
INSERT ... RETURNING id, sequence. -/
structure EventLogState (σ : Type) where
  events : List EventRow
  nextId : Nat
  nextSequence : Nat
  projections : σ

/-- The row produced for ev by INSERT INTO events ... RETURNING id, sequence. -/
def mkEventRow {σ : Type} (st : EventLogState σ) (ev : BeadEventIn) : EventRow :=
  { id := st.nextId, type := ev.type, project_key := ev.project_key,
    timestamp := ev.timestamp, sequence := st.nextSequence, data := ev.data }

/-- The state after the INSERT statement commits. -/
def insertEventRow {σ : Type} (st : EventLogState σ) (ev : BeadEventIn) : EventLogState σ :=
  { st with
    events := st.events ++ [mkEventRow st ev],
    nextId := st.nextId + 1, nextSequence := st.nextSequence + 1 }

/-- appendBeadEvent: INSERT the event row, then call updateProjections on
the inserted row.  The source wraps neither statement in a transaction
(no BEGIN/COMMIT): the INSERT auto-commits on its own, so if
updateProjections then throws, the error propagates while the inserted
event row stays in the events table. -/
def appendBeadEventRun {σ : Type} (updateProjections : σ → EventRow → Except String σ)
    (st : EventLogState σ) (ev : BeadEventIn) :
    Except String EventRow × EventLogState σ :=
  match updateProjections (insertEventRow st ev).projections (mkEventRow st ev) with
  | Except.error e => (Except.error e, insertEventRow st ev)
  | Except.ok p => (Except.ok (mkEventRow st ev), { insertEventRow st ev with projections := p })

-- ============================================================================
-- C7: StalenessDetector (session indexer)
-- ============================================================================

def GRACE_PERIOD_SECONDS : Int := 300

/-- A row of the session_index_state table. -/
structure IndexState where
  last_indexed_at : Int
  file_mtime : Int
  message_count : Int
deriving DecidableEq

/-- getIndexState: SELECT ... FROM session_index_state WHERE source_path = path. -/
def getIndexState (db : List (String × IndexState)) (path : String) : Option IndexState :=
  alookup db path

/-- recordIndexed: upsert of (path, now, mtime, messageCount) into
session_index_state. -/
def recordIndexed (db : List (String × IndexState)) (path : String)
    (now mtime messageCount : Int) : List (String × IndexState) :=
  aupsert db path
    { last_indexed_at := now, file_mtime := mtime, message_count := messageCount }

/-- checkStaleness(path, currentMtime): stale when never indexed, or when
currentMtime - file_mtime exceeds the 300 s grace period. -/
def checkStaleness (db : List (String × IndexState)) (path : String)
    (currentMtime : Int) : Bool :=
  match getIndexState db path with
  | none => true
  | some state => decide (GRACE_PERIOD_SECONDS < currentMtime - state.file_mtime)

-- ============================================================================
-- JS string primitives (char-level models of split and trim)
-- ============================================================================

/-- Whitespace for the purposes of String.prototype.trim (the characters
that occur in this code base: space, tab, carriage return, newline). -/
def isJsWhitespace (c : Char) : Bool :=
  c = ' ' || c = '\t' || c = '\r' || c = '\n'

/-- JS String.prototype.trim: drop leading and trailing whitespace. -/
def jsTrim (s : String) : String :=
  String.mk (((s.toList.dropWhile isJsWhitespace).reverse.dropWhile isJsWhitespace).reverse)

def splitCharsOn (sep : Char) : List Char → List (List Char)
  | [] => [[]]
  | c :: cs =>
    if c = sep then [] :: splitCharsOn sep cs
    else
      match splitCharsOn sep cs with
      | [] => [[c]]
      | l :: ls => (c :: l) :: ls

/-- JS String.prototype.split with a one-character separator. -/
def jsSplitOn (sep : Char) (s : String) : List String :=
  (splitCharsOn sep s.toList).map (fun l => String.mk l)

-- ============================================================================
-- C8: viewSessionLine (session viewer)
-- ============================================================================

/-- JS padStart(5, " "): left-pad with spaces to length 5. -/
def padStart5 (s : String) : String :=
  if 5 ≤ s.length then s else String.mk (List.replicate (5 - s.length) ' ') ++ s

/-- The 40-dash rule emitted before and after the content lines. -/
def ruleLine : String := "----------------------------------------"

/-- content.split("\n").filter(line => line.trim() !== ""): the viewer drops
every blank line and works on the remaining content lines. -/
def nonBlankLines (content : String) : List String :=
  (jsSplitOn '\n' content).filter (fun l => jsTrim l != "")

/-- The content lines of the viewer loop, one per i from
max(1, line-context) to min(N, line+context), kept as the pair
(marker, rest): the emitted line is marker ++ rest, and marker is ">"
exactly for the target line. -/
def viewSessionEntries (lines : List String) (line context : Int) : List (String × String) :=
  (List.range (min (lines.length : Int) (line + context)
      - max 1 (line - context) + 1).toNat).map
    (fun (j : Nat) =>
      ((if (max 1 (line - context) + (j : Int)) == line then ">" else " "),
        padStart5 (toString (max 1 (line - context) + (j : Int))) ++ " | "
          ++ lines.getD ((max 1 (line - context) + (j : Int)) - 1).toNat ""))

/-- viewSessionLine: validate 1 ≤ line ≤ N (N the number of non-blank
lines) or fail naming the valid range; otherwise emit the header, the
rule, the content window, and the closing rule. -/
def viewSessionLineOutput (path content : String) (line context : Int) :
    Except String (List String) :=
  if line < 1 ∨ ((nonBlankLines content).length : Int) < line then
    Except.error ("Line number must be between 1 and "
      ++ toString (nonBlankLines content).length)
  else
    Except.ok (["File: " ++ path,
      "Line: " ++ toString line
        ++ (if 0 < context then " (context: " ++ toString context ++ ")" else ""),
      ruleLine]
      ++ (viewSessionEntries (nonBlankLines content) line context).map (fun e => e.1 ++ e.2)
      ++ [ruleLine])

/-- The string returned to the caller: the output lines joined by newlines. -/
def viewSessionLine (path content : String) (line context : Int) : Except String String :=
  (viewSessionLineOutput path content line context).map
    (fun out => String.intercalate "\n" out)

-- ============================================================================
-- Semantic memory: data model (memory/store.ts, memory/adapter.ts, memory/sync.ts)
-- ============================================================================

/-- A JSON metadata value as this code base produces them: strings from
parsed objects, numbers (confidence), string arrays (tags). -/
inductive MetaField where
  | str : String → MetaField
  | num : ℚ → MetaField
  | strList : List String → MetaField
deriving DecidableEq

/-- A JSON metadata object, keys to values.  JSON.stringify at the SQL
boundary is modelled as the identity: the object itself is stored. -/
abbrev Meta : Type := List (String × MetaField)

/-- JS object property assignment obj[k] = v. -/
def setKey (m : Meta) (k : String) (v : MetaField) : Meta := aupsert m k v

/-- A row of the memories table. -/
structure MemRow where
  content : String
  metadata : Meta
  collection : String
  created_at : String
  confidence : ℚ
deriving DecidableEq

/-- The memories and memory_embeddings tables. -/
structure MemState where
  memories : List (String × MemRow)
  memory_embeddings : List (String × List ℚ)
deriving DecidableEq

/-- The Memory object passed to MemoryStore.store (createdAt already as
its ISO string, confidence optional with database default 0.7). -/
structure MemoryV where
  id : String
  content : String
  metadata : Meta
  collection : String
  createdAt : String
  confidence : Option ℚ
deriving DecidableEq

/-- Which statement of the store transaction fails, if any. -/
inductive StoreFail where
  | noFail
  | failMemories
  | failEmbeddings
deriving DecidableEq

namespace MemoryStore

/-- INSERT INTO memories ... ON CONFLICT (id) DO UPDATE SET content,
metadata, collection, confidence — created_at is deliberately absent
from the update list, so an existing row keeps its stored created_at. -/
def upsertMemoryRow (t : List (String × MemRow)) (m : MemoryV) : List (String × MemRow) :=
  aupdate t m.id
    (fun old =>
      { old with
        content := m.content, metadata := m.metadata,
        collection := m.collection, confidence := m.confidence.getD (7 / 10) })
    { content := m.content, metadata := m.metadata, collection := m.collection,
      created_at := m.createdAt, confidence := m.confidence.getD (7 / 10) }

/-- MemoryStore.store(memory, embedding): BEGIN; upsert the memories row;
upsert the embedding row; COMMIT — with ROLLBACK restoring the initial
state when either statement throws (failMemories: the first INSERT
throws before writing; failEmbeddings: the second INSERT throws and the
rollback undoes the first). -/
def store (fail : StoreFail) (st : MemState) (m : MemoryV) (embedding : List ℚ) :
    Except String Unit × MemState :=
  match fail with
  | StoreFail.failMemories => (Except.error "memories insert failed", st)
  | StoreFail.failEmbeddings => (Except.error "embeddings insert failed", st)
  | StoreFail.noFail =>
    (Except.ok (),
      { memories := upsertMemoryRow st.memories m,
        memory_embeddings := aupsert st.memory_embeddings m.id embedding })

end MemoryStore

-- ============================================================================
-- Memory sync: JSONL export/import (memory/sync.ts)
-- ============================================================================

/-- The JSONL export format for memories. -/
structure MemoryExport where
  id : String
  information : String
  metadata : Option String
  tags : Option String
  confidence : Option ℚ
  created_at : String
deriving DecidableEq

/-- The host JSON primitives the sync and adapter modules call:
parseExport is JSON.parse of a JSONL line (cast unchecked to
MemoryExport); parseMetaObj is JSON.parse of a metadata string into an
object, none when it throws. -/
structure JsonHost where
  parseExport : String → Except String MemoryExport
  parseMetaObj : String → Option (List (String × String))

/-- The loop body of parseMemoryJSONL: skip blank lines; collect parsed
records in order; throw "Invalid JSON in JSONL: ..." on the first
malformed line. -/
def parseJSONLLines (host : JsonHost) : List String → Except String (List MemoryExport)
  | [] => Except.ok []
  | l :: rest =>
    if jsTrim l == "" then parseJSONLLines host rest
    else
      match host.parseExport (jsTrim l) with
      | Except.ok m => (parseJSONLLines host rest).map (fun ms => m :: ms)
      | Except.error err => Except.error ("Invalid JSON in JSONL: " ++ err)

/-- parseMemoryJSONL: empty or all-whitespace input yields []; otherwise
split on newlines and run the line loop. -/
def parseMemoryJSONL (host : JsonHost) (jsonl : String) : Except String (List MemoryExport) :=
  if jsTrim jsonl == "" then Except.ok []
  else parseJSONLLines host (jsSplitOn '\n' jsonl)

/-- The metadata object importSingleMemory builds: the parsed metadata
string (with a raw fallback when it is not JSON), then the comma-split
trimmed tags under "tags", then the confidence under "confidence". -/
def importMetadata (host : JsonHost) (m : MemoryExport) : Meta :=
  let meta0 : Meta :=
    match m.metadata with
    | none => []
    | some s =>
      if s == "" then []
      else
        match host.parseMetaObj s with
        | some obj => obj.map (fun p => (p.1, MetaField.str p.2))
        | none => [("raw", MetaField.str s)]
  let meta1 : Meta :=
    match m.tags with
    | none => meta0
    | some t =>
      if t == "" then meta0
      else setKey meta0 "tags" (MetaField.strList ((jsSplitOn ',' t).map jsTrim))
  match m.confidence with
  | none => meta1
  | some c => setKey meta1 "confidence" (MetaField.num c)

inductive ImportOutcome where
  | created
  | skipped
deriving DecidableEq

/-- importSingleMemory: throws when the id is missing or blank; skips when
a row with the id exists (the source skips whether or not skipExisting
is set); otherwise inserts the row with collection "default" and the
schema default confidence 0.7. -/
def importSingleMemory (host : JsonHost) (st : List (String × MemRow))
    (m : MemoryExport) (skipExisting : Bool) :
    Except String (List (String × MemRow) × ImportOutcome) :=
  if jsTrim m.id == "" then Except.error "Memory ID is required"
  else if st.any (fun p => p.1 == m.id) then
    if skipExisting then Except.ok (st, ImportOutcome.skipped)
    else Except.ok (st, ImportOutcome.skipped)
  else
    Except.ok (st ++ [(m.id,
      { content := m.information, metadata := importMetadata host m,
        collection := "default", created_at := m.created_at,
        confidence := 7 / 10 })], ImportOutcome.created)

/-- The import result: created/skipped counters and one error entry per
record whose import threw. -/
structure MemoryImportResult where
  created : Nat
  skipped : Nat
  errors : List (String × String)
deriving DecidableEq

/-- The record loop of importMemories: each record import runs inside a
try/catch, so a per-record error is appended to errors and the loop
continues with the remaining records. -/
def importLoop (host : JsonHost) (skipExisting : Bool) :
    List MemoryExport → List (String × MemRow) → MemoryImportResult →
      List (String × MemRow) × MemoryImportResult
  | [], st, r => (st, r)
  | m :: rest, st, r =>
    match importSingleMemory host st m skipExisting with
    | Except.ok (st2, ImportOutcome.created) =>
      importLoop host skipExisting rest st2 { r with created := r.created + 1 }
    | Except.ok (st2, ImportOutcome.skipped) =>
      importLoop host skipExisting rest st2 { r with skipped := r.skipped + 1 }
    | Except.error e =>
      importLoop host skipExisting rest st { r with errors := r.errors ++ [(m.id, e)] }

/-- importMemories: parse the whole JSONL up front — outside any
try/catch, so a malformed line throws and aborts the entire import with
the database untouched — then run the record loop. -/
def importMemoriesRun (host : JsonHost) (st : List (String × MemRow)) (jsonl : String)
    (skipExisting : Bool) :
    Except String MemoryImportResult × List (String × MemRow) :=
  match parseMemoryJSONL host jsonl with
  | Except.error e => (Except.error e, st)
  | Except.ok ms =>
    (Except.ok (importLoop host skipExisting ms st ⟨0, 0, []⟩).2,
      (importLoop host skipExisting ms st ⟨0, 0, []⟩).1)

/-- A concrete host standing for Node JSON.parse on the inputs used in
the witnesses: one well-formed JSONL line parses, everything else
throws. -/
def c5Host : JsonHost :=
  { parseExport := fun s =>
      if s == "\x7b\x22id\x22:\x22m1\x22,\x22information\x22:\x22hello\x22,\x22created_at\x22:\x22t1\x22\x7d" then
        Except.ok { id := "m1", information := "hello", metadata := none,
                    tags := none, confidence := none, created_at := "t1" }
      else Except.error "Unexpected token",
    parseMetaObj := fun _ => none }

-- ============================================================================
-- Semantic search and the memory adapter (memory/store.ts, memory/adapter.ts)
-- ============================================================================

/-- The Memory object parseMemoryRow builds from a database row (createdAt
becomes a Date, i.e. a real-valued timestamp in milliseconds). -/
structure MemoryOut where
  id : String
  content : String
  metadata : Meta
  collection : String
  createdAt : ℝ
  confidence : ℚ

/-- A search result: memory, score, and which search matched. -/
structure SearchResult where
  memory : MemoryOut
  score : ℝ
  matchType : String

/-- The database primitives the search SQL relies on: Postgres full-text
match (@@) and ts_rank, pgvector cosine distance (<=>), and Date parsing
of the stored created_at text. -/
structure DbOracle where
  tsMatch : String → String → Bool
  tsRank : String → String → ℝ
  cosDist : List ℚ → List ℚ → ℝ
  parseDate : String → ℝ

noncomputable instance : DecidableRel (fun a b : SearchResult => b.score ≤ a.score) :=
  fun a b => Real.decidableLE b.score a.score

noncomputable instance : DecidableRel (fun a b : String × MemRow × ℝ => a.2.2 ≤ b.2.2) :=
  fun a b => Real.decidableLE a.2.2 b.2.2

instance : IsTotal SearchResult (fun a b => b.score ≤ a.score) :=
  ⟨fun a b => le_total b.score a.score⟩

instance : IsTrans SearchResult (fun a b => b.score ≤ a.score) :=
  ⟨fun _ _ _ hab hbc => le_trans hbc hab⟩

/-- parseMemoryRow: the Memory object built from a database row. -/
noncomputable def parseMemoryRow (o : DbOracle) (id : String) (row : MemRow) : MemoryOut :=
  { id := id, content := row.content, metadata := row.metadata,
    collection := row.collection, createdAt := o.parseDate row.created_at,
    confidence := row.confidence }

/-- ftsSearch: memories rows whose content matches the ts query, optionally
filtered by collection, scored by ts_rank, ordered by score descending
(a stable descending sort, matching ORDER BY score DESC), limited. -/
noncomputable def ftsSearch (o : DbOracle) (st : MemState) (searchQuery : String)
    (limit : Nat) (collection : Option String) : List SearchResult :=
  (List.insertionSort (fun a b : SearchResult => b.score ≤ a.score)
    ((match collection with
      | some c => (st.memories.filter
          (fun (p : String × MemRow) => o.tsMatch p.2.content searchQuery)).filter
          (fun (p : String × MemRow) => p.2.collection == c)
      | none => st.memories.filter
          (fun (p : String × MemRow) => o.tsMatch p.2.content searchQuery)).map
      (fun (p : String × MemRow) =>
        { memory := parseMemoryRow o p.1 p.2,
          score := o.tsRank p.2.content searchQuery,
          matchType := "fts" }))).take limit

/-- search (vector): join memory_embeddings with memories, optionally
filter by collection, keep rows with 1 - distance ≥ threshold, order by
distance ascending, limit, and score each row as 1 - distance. -/
noncomputable def vectorSearch (o : DbOracle) (st : MemState) (queryEmbedding : List ℚ)
    (limit : Nat) (threshold : ℝ) (collection : Option String) : List SearchResult :=
  ((List.insertionSort (fun a b : String × MemRow × ℝ => a.2.2 ≤ b.2.2)
      ((match collection with
        | some c => (st.memory_embeddings.filterMap (fun (p : String × List ℚ) =>
            (alookup st.memories p.1).map
              (fun row => (p.1, row, o.cosDist p.2 queryEmbedding)))).filter
            (fun (r : String × MemRow × ℝ) => r.2.1.collection == c)
        | none => st.memory_embeddings.filterMap (fun (p : String × List ℚ) =>
            (alookup st.memories p.1).map
              (fun row => (p.1, row, o.cosDist p.2 queryEmbedding)))).filter
        (fun (r : String × MemRow × ℝ) => decide (threshold ≤ 1 - r.2.2)))).take limit).map
    (fun (r : String × MemRow × ℝ) =>
      { memory := parseMemoryRow o r.1 r.2.1,
        score := 1 - r.2.2, matchType := "vector" })

/-- calculateDecayFactor: 0.5 ^ (ageInDays / 90), where age is the
difference between now and createdAt in milliseconds, converted to days. -/
noncomputable def calculateDecayFactor (now createdAt : ℝ) : ℝ :=
  ((1 : ℝ) / 2) ^ ((now - createdAt) / (1000 * 60 * 60 * 24) / 90)

/-- applyDecay: multiply every result score by its decay factor. -/
noncomputable def applyDecay (now : ℝ) (results : List SearchResult) : List SearchResult :=
  results.map (fun r =>
    { r with score := r.score * calculateDecayFactor now r.memory.createdAt })

/-- results.sort((a, b) => b.score - a.score): a stable sort by score
descending. -/
noncomputable def sortByScoreDesc (results : List SearchResult) : List SearchResult :=
  List.insertionSort (fun a b => b.score ≤ a.score) results

/-- The expand option: content longer than 200 characters is truncated
with an ellipsis when not expanded. -/
def truncateResult (r : SearchResult) : SearchResult :=
  if 200 < r.memory.content.length then
    { r with memory := { r.memory with content := r.memory.content.take 200 ++ "..." } }
  else r

/-- The tail of find: decay every score, re-sort by decayed score
descending, then truncate content unless expand is set. -/
noncomputable def findPostProcess (now : ℝ) (expand : Bool) (results : List SearchResult) :
    List SearchResult :=
  if expand then sortByScoreDesc (applyDecay now results)
  else (sortByScoreDesc (applyDecay now results)).map truncateResult

/-- The find options with their defaults already applied by the caller. -/
structure FindOptions where
  limit : Nat
  collection : Option String
  expand : Bool
  fts : Bool

/-- find: full-text search when requested or when embedding generation
fails (graceful degradation); vector search (threshold default 0.3)
otherwise; then the decay/sort/truncate pipeline. -/
noncomputable def adapterFind (o : DbOracle) (embedResult : Option (List ℚ)) (now : ℝ)
    (st : MemState) (query : String) (fopts : FindOptions) : List SearchResult :=
  findPostProcess now fopts.expand
    (if fopts.fts then ftsSearch o st query fopts.limit fopts.collection
     else
       match embedResult with
       | none => ftsSearch o st query fopts.limit fopts.collection
       | some embedding =>
         vectorSearch o st embedding fopts.limit ((3 : ℝ) / 10) fopts.collection)

/-- The options of the adapter store call. -/
structure StoreOptions where
  collection : Option String
  tags : Option String
  metadata : Option String
deriving DecidableEq

/-- parseTags: split on commas, trim, drop empties; none for an absent or
empty (falsy) tags string. -/
def parseTags : Option String → Option (List String)
  | none => none
  | some t =>
    if t == "" then none
    else some (((jsSplitOn ',' t).map jsTrim).filter (fun s => s != ""))

/-- The metadata JSON parse at the top of the adapter store: {} when
absent or falsy, the parsed object otherwise, throwing
"Invalid JSON in metadata field" when JSON.parse throws. -/
def adapterParseMeta (host : JsonHost) : Option String → Except String Meta
  | none => Except.ok []
  | some s =>
    if s == "" then Except.ok []
    else
      match host.parseMetaObj s with
      | some obj => Except.ok (obj.map (fun p => (p.1, MetaField.str p.2)))
      | none => Except.error "Invalid JSON in metadata field"

/-- The adapter store after the metadata object is built: generate the
embedding — aborting with an error and touching nothing when the
embedder is unavailable — then run the transactional MemoryStore.store
on a fresh Memory (createdAt = now, no explicit confidence). -/
def adapterStoreWithMeta (embedResult : Option (List ℚ)) (dbFail : StoreFail)
    (newId createdAt : String) (st : MemState) (information : String)
    (collection : Option String) (meta : Meta) : Except String String × MemState :=
  match embedResult with
  | none =>
    (Except.error
      "Failed to generate embedding. Ensure Ollama is running and model is available.", st)
  | some embedding =>
    match MemoryStore.store dbFail st
      { id := newId, content := information, metadata := meta,
        collection := collection.getD "default", createdAt := createdAt,
        confidence := none } embedding with
    | (Except.ok _, st2) => (Except.ok newId, st2)
    | (Except.error e, st2) => (Except.error e, st2)

/-- The adapter store: parse the metadata JSON (throwing on invalid
JSON), attach the parsed tags under "tags", then generate the embedding
and store. -/
def adapterStore (host : JsonHost) (embedResult : Option (List ℚ)) (dbFail : StoreFail)
    (newId createdAt : String) (st : MemState) (information : String)
    (opts : StoreOptions) : Except String String × MemState :=
  match adapterParseMeta host opts.metadata with
  | Except.error e => (Except.error e, st)
  | Except.ok meta0 =>
    adapterStoreWithMeta embedResult dbFail newId createdAt st information opts.collection
      (match parseTags opts.tags with
       | some ts => setKey meta0 "tags" (MetaField.strList ts)
       | none => meta0)

-- ============================================================================
-- C6: time decay in find (memory/adapter.ts)
-- ============================================================================

/-- The memories row of the fresh memory in the decay scenario. -/
def c6RowFresh : MemRow :=
  { content := "same content", metadata := [], collection := "default",
    created_at := "dateFresh", confidence := 7 / 10 }

/-- The memories row of the 180-day-old memory in the decay scenario. -/
def c6RowOld : MemRow :=
  { content := "same content", metadata := [], collection := "default",
    created_at := "dateOld", confidence := 7 / 10 }

/-- The decay-scenario store: memories A (fresh) and B (180 days old)
with identical content, each with an embedding; B enumerates first so
the re-sort by decayed score is observable. -/
def c6State : MemState :=
  { memories := [("B", c6RowOld), ("A", c6RowFresh)],
    memory_embeddings := [("B", [1]), ("A", [1])] }

/-- The decay-scenario database primitives: the query embedding matches
both memories exactly (cosine distance 0, so raw score 1.0), and the
stored dates parse to now and now - 180 days. -/
noncomputable def c6Oracle (now : ℝ) : DbOracle :=
  { tsMatch := fun _ _ => false, tsRank := fun _ _ => 0,
    cosDist := fun _ _ => 0,
    parseDate := fun s => if s == "dateFresh" then now else now - 180 * 86400000 }

-- ============================================================================
-- Theorems
-- ============================================================================

theorem alookup_cons_self {α : Type} (p : String × α) (m : List (String × α)) (k : String)
    (h : p.1 = k) : alookup (p :: m) k = some p.2 := by
  unfold alookup
  rw [List.find?_cons_of_pos _ (by simp [h])]
  rfl

theorem alookup_cons_ne {α : Type} (p : String × α) (m : List (String × α)) (k : String)
    (h : p.1 ≠ k) : alookup (p :: m) k = alookup m k := by
  unfold alookup
  rw [List.find?_cons_of_neg _ (by simp [h])]

theorem aupdate_cons_self {α : Type} (p : String × α) (m : List (String × α)) (k : String)
    (f : α → α) (ins : α) (h : p.1 = k) :
    aupdate (p :: m) k f ins = (k, f p.2) :: m := by
  simp [aupdate, h]

theorem aupdate_cons_ne {α : Type} (p : String × α) (m : List (String × α)) (k : String)
    (f : α → α) (ins : α) (h : p.1 ≠ k) :
    aupdate (p :: m) k f ins = p :: aupdate m k f ins := by
  simp [aupdate, h]

theorem alookup_aupdate_self_some {α : Type} (m : List (String × α)) (k : String)
    (f : α → α) (ins : α) (a : α) (h : alookup m k = some a) :
    alookup (aupdate m k f ins) k = some (f a) := by
  induction m with
  | nil => simp [alookup] at h
  | cons p m ih =>
    by_cases hp : p.1 = k
    · rw [alookup_cons_self p m k hp] at h
      have ha : a = p.2 := by cases h; rfl
      subst ha
      rw [aupdate_cons_self p m k f ins hp]
      exact alookup_cons_self _ _ _ rfl
    · rw [alookup_cons_ne p m k hp] at h
      rw [aupdate_cons_ne p m k f ins hp]
      rw [alookup_cons_ne p _ k hp]
      exact ih h

theorem alookup_aupdate_self_none {α : Type} (m : List (String × α)) (k : String)
    (f : α → α) (ins : α) (h : alookup m k = none) :
    alookup (aupdate m k f ins) k = some ins := by
  induction m with
  | nil => exact alookup_cons_self _ _ _ rfl
  | cons p m ih =>
    by_cases hp : p.1 = k
    · rw [alookup_cons_self p m k hp] at h
      exact Option.noConfusion h
    · rw [alookup_cons_ne p m k hp] at h
      rw [aupdate_cons_ne p m k f ins hp]
      rw [alookup_cons_ne p _ k hp]
      exact ih h

theorem alookup_aupdate_ne {α : Type} (m : List (String × α)) (k k2 : String)
    (f : α → α) (ins : α) (h : k2 ≠ k) :
    alookup (aupdate m k f ins) k2 = alookup m k2 := by
  induction m with
  | nil =>
    show alookup [(k, ins)] k2 = alookup [] k2
    rw [alookup_cons_ne (k, ins) [] k2 (Ne.symm h)]
  | cons p m ih =>
    by_cases hp : p.1 = k
    · rw [aupdate_cons_self p m k f ins hp]
      rw [alookup_cons_ne (k, f p.2) m k2 (Ne.symm h)]
      rw [alookup_cons_ne p m k2 (by rw [hp]; exact Ne.symm h)]
    · rw [aupdate_cons_ne p m k f ins hp]
      by_cases hp2 : p.1 = k2
      · rw [alookup_cons_self _ _ _ hp2, alookup_cons_self _ _ _ hp2]
      · rw [alookup_cons_ne _ _ _ hp2, alookup_cons_ne _ _ _ hp2]
        exact ih

theorem alookup_aupsert_self {α : Type} (m : List (String × α)) (k : String) (v : α) :
    alookup (aupsert m k v) k = some v := by
  unfold aupsert
  cases h : alookup m k with
  | none => exact alookup_aupdate_self_none m k _ v h
  | some a => exact alookup_aupdate_self_some m k _ v a h

theorem alookup_aupsert_ne {α : Type} (m : List (String × α)) (k k2 : String) (v : α)
    (h : k2 ≠ k) : alookup (aupsert m k v) k2 = alookup m k2 :=
  alookup_aupdate_ne m k k2 _ v h

theorem alookup_adelete_self {α : Type} (m : List (String × α)) (k : String) :
    alookup (adelete m k) k = none := by
  induction m with
  | nil => rfl
  | cons p m ih =>
    by_cases hp : p.1 = k
    · simpa [adelete, hp] using ih
    · simp only [adelete, List.filter_cons]
      rw [if_pos (by simp [hp])]
      rw [alookup_cons_ne _ _ _ hp]
      exact ih

theorem alookup_adelete_ne {α : Type} (m : List (String × α)) (k k2 : String)
    (h : k2 ≠ k) : alookup (adelete m k) k2 = alookup m k2 := by
  induction m with
  | nil => rfl
  | cons p m ih =>
    by_cases hp : p.1 = k
    · simp only [adelete, List.filter_cons]
      rw [if_neg (by simp [hp])]
      rw [alookup_cons_ne _ _ _ (by rw [hp]; exact Ne.symm h)]
      exact ih
    · simp only [adelete, List.filter_cons]
      rw [if_pos (by simp [hp])]
      by_cases hp2 : p.1 = k2
      · rw [alookup_cons_self _ _ _ hp2, alookup_cons_self _ _ _ hp2]
      · rw [alookup_cons_ne _ _ _ hp2, alookup_cons_ne _ _ _ hp2]
        exact ih

theorem mem_cteFrontier (edges : List DepEdge) (start : String) (d : Nat) (e : DepEdge) :
    e ∈ cteFrontier edges start d ↔ e ∈ edges ∧ reachN edges start d e.bead_id := by
  induction d generalizing e with
  | zero =>
    simp only [cteFrontier, List.mem_filter, beq_iff_eq, reachN]
    exact and_congr_right (fun _ => eq_comm)
  | succ d ih =>
    simp only [cteFrontier, List.mem_filter, List.any_eq_true, beq_iff_eq, reachN]
    constructor
    · rintro ⟨he, p, hp, hpe⟩
      rcases (ih p).1 hp with ⟨hpedges, hreach⟩
      exact ⟨he, p, hpedges, hreach, hpe⟩
    · rintro ⟨he, p, hpedges, hreach, hpe⟩
      exact ⟨he, p, (ih p).2 ⟨hpedges, hreach⟩, hpe⟩

-- ============================================================================
-- C3: wouldCreateCycle follows all edges, not only blocks edges
-- ============================================================================

/-- C3 counterexample: a single edge "b depends on a" with relationship
'related' (not 'blocks').  The claim says wouldCreateCycle(a, b) returns
false for pairs connected only through non-'blocks' relationships.  The
code returns true: the CTE has no relationship filter. -/
theorem C3_counterexample :
    wouldCreateCycle [⟨"b", "a", "related"⟩] "a" "b" = true ∧
    (∀ e ∈ ([⟨"b", "a", "related"⟩] : List DepEdge), e.relationship ≠ "blocks") := by
  constructor
  · decide
  · intro e he
    simp only [List.mem_singleton] at he
    subst he
    decide

/-- C3 (amended): wouldCreateCycle(a, b) traverses from b following
dependency edges of every relationship (not only 'blocks'), and returns
true iff a is reachable from b by a walk of between 1 and 100 dependency
edges. -/
theorem C3_amended (edges : List DepEdge) (a b : String) :
    wouldCreateCycle edges a b = true ↔
      ∃ d, 1 ≤ d ∧ d ≤ MAX_DEPENDENCY_DEPTH ∧ reachN edges b d a := by
  unfold wouldCreateCycle
  simp only [List.any_eq_true, List.mem_range, beq_iff_eq]
  constructor
  · rintro ⟨d, hd, e, he, hea⟩
    rcases (mem_cteFrontier edges b d e).1 he with ⟨heedges, hreach⟩
    exact ⟨d + 1, Nat.succ_le_succ (Nat.zero_le d), Nat.succ_le_of_lt hd,
      e, heedges, hreach, hea⟩
  · rintro ⟨d, hd1, hd2, hreach⟩
    cases d with
    | zero => exact absurd hd1 (by omega)
    | succ d =>
      rcases hreach with ⟨e, heedges, hreach, hea⟩
      exact ⟨d, Nat.lt_of_succ_le hd2,
        e, (mem_cteFrontier edges b d e).2 ⟨heedges, hreach⟩, hea⟩

/-- C2: on an empty dependency table the guard wouldCreateCycle("a", "a")
returns false, so the guarded add commits the self-dependency
'a blocks a' — after which the blocks subgraph contains a cycle.  The
code contradicts the DAG invariant stated both by the spec and by the
module documentation of dependencies.ts. -/
theorem C2_selfDependency :
    addDependencyGuarded [] "a" "a" "blocks"
        = Except.ok [⟨"a", "a", "blocks"⟩] ∧
    HasBlocksCycle [⟨"a", "a", "blocks"⟩] := by
  constructor
  · rfl
  · refine ⟨"a", 1, le_refl 1, ⟨"a", "a", "blocks"⟩, ?_, rfl, rfl⟩
    simp [blocksEdges]

theorem getOpenBlockers_congr (db1 db2 : GraphDb) (projectKey beadId : String)
    (hb : db1.beads = db2.beads) (hd : db1.deps = db2.deps) :
    getOpenBlockers db1 projectKey beadId = getOpenBlockers db2 projectKey beadId := by
  unfold getOpenBlockers
  rw [hb, hd]

theorem freshCacheRow_congr (db1 db2 : GraphDb) (projectKey beadId : String)
    (hb : db1.beads = db2.beads) (hd : db1.deps = db2.deps) :
    freshCacheRow db1 projectKey beadId = freshCacheRow db2 projectKey beadId := by
  unfold freshCacheRow
  rw [getOpenBlockers_congr db1 db2 projectKey beadId hb hd]

theorem rebuild_beads_deps (db : GraphDb) (projectKey beadId : String) :
    (rebuildBeadBlockedCache db projectKey beadId).beads = db.beads ∧
    (rebuildBeadBlockedCache db projectKey beadId).deps = db.deps := by
  unfold rebuildBeadBlockedCache
  split <;> exact ⟨rfl, rfl⟩

theorem rebuild_cache_lookup (db : GraphDb) (projectKey x y : String) :
    alookup (rebuildBeadBlockedCache db projectKey x).blocked_beads_cache y
      = if y = x then freshCacheRow db projectKey x
        else alookup db.blocked_beads_cache y := by
  unfold rebuildBeadBlockedCache freshCacheRow
  by_cases hlen : 0 < (getOpenBlockers db projectKey x).length
  · rw [if_pos hlen, if_pos hlen]
    by_cases hxy : y = x
    · subst hxy
      rw [if_pos rfl]
      exact alookup_aupsert_self _ _ _
    · rw [if_neg hxy]
      exact alookup_aupsert_ne _ _ _ _ hxy
  · rw [if_neg hlen, if_neg hlen]
    by_cases hxy : y = x
    · subst hxy
      rw [if_pos rfl]
      exact alookup_adelete_self _ _
    · rw [if_neg hxy]
      exact alookup_adelete_ne _ _ _ hxy

theorem foldl_rebuild_lookup (db0 : GraphDb) (projectKey : String) (l : List String)
    (s : GraphDb) (hb : s.beads = db0.beads) (hd : s.deps = db0.deps) :
    ((l.foldl (fun a bid => rebuildBeadBlockedCache a projectKey bid) s).beads = db0.beads ∧
     (l.foldl (fun a bid => rebuildBeadBlockedCache a projectKey bid) s).deps = db0.deps) ∧
    ∀ y, alookup
        (l.foldl (fun a bid => rebuildBeadBlockedCache a projectKey bid) s).blocked_beads_cache y
      = if y ∈ l then freshCacheRow db0 projectKey y
        else alookup s.blocked_beads_cache y := by
  induction l generalizing s with
  | nil => exact ⟨⟨hb, hd⟩, fun y => by simp⟩
  | cons x xs ih =>
    have hframe := rebuild_beads_deps s projectKey x
    have hb1 : (rebuildBeadBlockedCache s projectKey x).beads = db0.beads := by
      rw [hframe.1, hb]
    have hd1 : (rebuildBeadBlockedCache s projectKey x).deps = db0.deps := by
      rw [hframe.2, hd]
    rcases ih (rebuildBeadBlockedCache s projectKey x) hb1 hd1 with ⟨hfr, hlook⟩
    refine ⟨hfr, fun y => ?_⟩
    rw [List.foldl_cons] at *
    rw [hlook y, rebuild_cache_lookup s projectKey x y]
    have hfreshx : freshCacheRow s projectKey x = freshCacheRow db0 projectKey x :=
      freshCacheRow_congr s db0 projectKey x hb hd
    by_cases hyx : y = x
    · subst hyx
      by_cases hmem : y ∈ xs
      · simp [hmem]
      · simp [hmem, hfreshx]
    · by_cases hmem : y ∈ xs
      · simp [hmem, hyx]
      · simp [hmem, hyx]

/-- C4 counterexample: beads a, b, c all open in project p, with
c blocks-depends on b and b blocks-depends on a, and an empty cache.
A fresh recomputation for c yields open blockers [b, a], but
invalidateBlockedCache(p, a) rebuilds only a and its direct dependent b:
c's cache row (absent, i.e. "unblocked") is NOT equal to a fresh
recomputation, refuting the claim that every transitive dependent is
rebuilt. -/
theorem C4_counterexample :
    alookup (invalidateBlockedCache
      { beads := [⟨"a", "p", "open", none⟩, ⟨"b", "p", "open", none⟩,
                  ⟨"c", "p", "open", none⟩],
        deps := [⟨"c", "b", "blocks"⟩, ⟨"b", "a", "blocks"⟩],
        blocked_beads_cache := [] } "p" "a").blocked_beads_cache "c" = none ∧
    freshCacheRow
      { beads := [⟨"a", "p", "open", none⟩, ⟨"b", "p", "open", none⟩,
                  ⟨"c", "p", "open", none⟩],
        deps := [⟨"c", "b", "blocks"⟩, ⟨"b", "a", "blocks"⟩],
        blocked_beads_cache := [] } "p" "c" = some ["b", "a"] := by
  constructor
  · decide
  · decide

/-- C4 (amended): invalidateBlockedCache(project, id) leaves beads and
dependencies unchanged, rebuilds the cache row of id and of every bead
that DIRECTLY depends on id to a fresh recomputation of its open
blockers, and leaves the cache row of every other bead — in particular
every bead that only transitively depends on id — unchanged. -/
theorem C4_amended (db : GraphDb) (projectKey beadId : String) :
    ((invalidateBlockedCache db projectKey beadId).beads = db.beads ∧
     (invalidateBlockedCache db projectKey beadId).deps = db.deps) ∧
    alookup (invalidateBlockedCache db projectKey beadId).blocked_beads_cache beadId
      = freshCacheRow db projectKey beadId ∧
    (∀ w, w ∈ directDependents db.deps beadId →
      alookup (invalidateBlockedCache db projectKey beadId).blocked_beads_cache w
        = freshCacheRow db projectKey w) ∧
    (∀ x, x ≠ beadId → x ∉ directDependents db.deps beadId →
      alookup (invalidateBlockedCache db projectKey beadId).blocked_beads_cache x
        = alookup db.blocked_beads_cache x) := by
  have hframe := rebuild_beads_deps db projectKey beadId
  have hdeps1 : (rebuildBeadBlockedCache db projectKey beadId).deps = db.deps := hframe.2
  unfold invalidateBlockedCache
  rw [hdeps1]
  rcases foldl_rebuild_lookup db projectKey (directDependents db.deps beadId)
      (rebuildBeadBlockedCache db projectKey beadId) hframe.1 hframe.2 with ⟨hfr, hlook⟩
  refine ⟨hfr, ?_, ?_, ?_⟩
  · rw [hlook beadId, rebuild_cache_lookup db projectKey beadId beadId]
    by_cases hmem : beadId ∈ directDependents db.deps beadId
    · simp [hmem]
    · simp [hmem]
  · intro w hw
    rw [hlook w]
    simp [hw]
  · intro x hx hmem
    rw [hlook x, rebuild_cache_lookup db projectKey beadId x]
    simp [hx, hmem]

/-- C4 witness: instantiates C4_amended on the counterexample state,
discharging the membership hypotheses concretely. -/
theorem C4_witness :
    alookup (invalidateBlockedCache
      { beads := [⟨"a", "p", "open", none⟩, ⟨"b", "p", "open", none⟩,
                  ⟨"c", "p", "open", none⟩],
        deps := [⟨"c", "b", "blocks"⟩, ⟨"b", "a", "blocks"⟩],
        blocked_beads_cache := [] } "p" "a").blocked_beads_cache "b"
      = freshCacheRow
        { beads := [⟨"a", "p", "open", none⟩, ⟨"b", "p", "open", none⟩,
                    ⟨"c", "p", "open", none⟩],
          deps := [⟨"c", "b", "blocks"⟩, ⟨"b", "a", "blocks"⟩],
          blocked_beads_cache := [] } "p" "b" :=
  (C4_amended
    { beads := [⟨"a", "p", "open", none⟩, ⟨"b", "p", "open", none⟩,
                ⟨"c", "p", "open", none⟩],
      deps := [⟨"c", "b", "blocks"⟩, ⟨"b", "a", "blocks"⟩],
      blocked_beads_cache := [] } "p" "a").2.2.1 "b" (by decide)

/-- C1 counterexample: with a projection update that throws, appendBeadEvent
surfaces the error yet the inserted event row remains in the events
table — refuting the claim that a partial failure rolls back both and
leaves the events table unchanged. -/
theorem C1_counterexample :
    (appendBeadEventRun (σ := Unit) (fun _ _ => Except.error "projection update failed")
      ⟨[], 1, 1, ()⟩ ⟨"bead_created", "/repo", 0, "bd-1"⟩).1
        = Except.error "projection update failed" ∧
    (appendBeadEventRun (σ := Unit) (fun _ _ => Except.error "projection update failed")
      ⟨[], 1, 1, ()⟩ ⟨"bead_created", "/repo", 0, "bd-1"⟩).2.events
        = [⟨1, "bead_created", "/repo", 0, 1, "bd-1"⟩] :=
  ⟨rfl, rfl⟩

/-- C1 (amended): appendBeadEvent runs the event INSERT and the projection
update as two separate auto-committed steps, not inside one transaction.
The event row is appended to the events table in every outcome; when the
projection update fails the error propagates with the projections left
unchanged (and the event row still present); when it succeeds the
returned event carries the assigned id and sequence and the projections
take the updated value. -/
theorem C1_amended {σ : Type} (updateProjections : σ → EventRow → Except String σ)
    (st : EventLogState σ) (ev : BeadEventIn) :
    (appendBeadEventRun updateProjections st ev).2.events
        = st.events ++ [mkEventRow st ev] ∧
    (∀ e, (appendBeadEventRun updateProjections st ev).1 = Except.error e →
      (appendBeadEventRun updateProjections st ev).2.projections = st.projections) ∧
    (∀ p, updateProjections st.projections (mkEventRow st ev) = Except.ok p →
      (appendBeadEventRun updateProjections st ev).1 = Except.ok (mkEventRow st ev) ∧
      (appendBeadEventRun updateProjections st ev).2.projections = p) := by
  have hproj : (insertEventRow st ev).projections = st.projections := rfl
  unfold appendBeadEventRun
  rw [hproj]
  cases h : updateProjections st.projections (mkEventRow st ev) with
  | error e =>
    exact ⟨rfl, fun e2 _ => rfl, fun p hp => Except.noConfusion hp⟩
  | ok p =>
    refine ⟨rfl, fun e2 he => Except.noConfusion he, fun p2 hp => ?_⟩
    cases hp
    exact ⟨rfl, rfl⟩

/-- C1 witness: C1_amended applied at a concrete state and a projection
update that succeeds, with the hypotheses discharged by rfl. -/
theorem C1_witness :
    (appendBeadEventRun (σ := Nat) (fun s _ => Except.ok (s + 1))
        ⟨[], 1, 1, 0⟩ ⟨"bead_created", "/repo", 7, "bd-9"⟩).2.events
      = [] ++ [mkEventRow ⟨[], 1, 1, 0⟩ ⟨"bead_created", "/repo", 7, "bd-9"⟩] ∧
    (appendBeadEventRun (σ := Nat) (fun s _ => Except.ok (s + 1))
        ⟨[], 1, 1, 0⟩ ⟨"bead_created", "/repo", 7, "bd-9"⟩).1
      = Except.ok (mkEventRow ⟨[], 1, 1, 0⟩ ⟨"bead_created", "/repo", 7, "bd-9"⟩) ∧
    (appendBeadEventRun (σ := Nat) (fun s _ => Except.ok (s + 1))
        ⟨[], 1, 1, 0⟩ ⟨"bead_created", "/repo", 7, "bd-9"⟩).2.projections = 1 := by
  have h := C1_amended (σ := Nat) (fun s _ => Except.ok (s + 1))
    ⟨[], 1, 1, 0⟩ ⟨"bead_created", "/repo", 7, "bd-9"⟩
  exact ⟨h.1, (h.2.2 1 rfl).1, (h.2.2 1 rfl).2⟩

/-- C7: checkStaleness returns true iff the path was never indexed or the
mtime delta exceeds 300 s; a never-indexed path is stale; a just-recorded
path checked with its recorded mtime is fresh; and the exact boundary
currentMtime = file_mtime + 300 is fresh. -/
theorem C7_checkStaleness (db : List (String × IndexState)) (path : String)
    (currentMtime : Int) :
    (checkStaleness db path currentMtime = true ↔
      (getIndexState db path = none ∨
       ∃ state, getIndexState db path = some state ∧
         currentMtime - state.file_mtime > GRACE_PERIOD_SECONDS)) ∧
    (∀ now mtime messageCount,
      checkStaleness (recordIndexed db path now mtime messageCount) path mtime = false) ∧
    (∀ state, getIndexState db path = some state →
      checkStaleness db path (state.file_mtime + GRACE_PERIOD_SECONDS) = false) := by
  refine ⟨?_, ?_, ?_⟩
  · unfold checkStaleness
    cases h : getIndexState db path with
    | none => simp
    | some state =>
      simp only [decide_eq_true_eq]
      constructor
      · intro hlt
        exact Or.inr ⟨state, rfl, hlt⟩
      · rintro (hnone | ⟨state2, hsome, hgt⟩)
        · exact Option.noConfusion hnone
        · cases hsome
          exact hgt
  · intro now mtime messageCount
    unfold checkStaleness getIndexState recordIndexed
    rw [alookup_aupsert_self]
    simp [GRACE_PERIOD_SECONDS]
  · intro state hstate
    unfold checkStaleness
    rw [hstate]
    simp only [decide_eq_false_iff_not, not_lt]
    omega

/-- C7 witness: C7_checkStaleness applied at a concrete one-row table,
discharging the some-row hypothesis by rfl. -/
theorem C7_witness :
    (checkStaleness [("/tmp/a.jsonl", ⟨1000, 900, 3⟩)] "/tmp/a.jsonl" 1300 = true ↔
      (getIndexState [("/tmp/a.jsonl", ⟨1000, 900, 3⟩)] "/tmp/a.jsonl" = none ∨
       ∃ state, getIndexState [("/tmp/a.jsonl", ⟨1000, 900, 3⟩)] "/tmp/a.jsonl" = some state ∧
         1300 - state.file_mtime > GRACE_PERIOD_SECONDS)) ∧
    checkStaleness [("/tmp/a.jsonl", ⟨1000, 900, 3⟩)]
      "/tmp/a.jsonl" ((900 : Int) + GRACE_PERIOD_SECONDS) = false := by
  have h := C7_checkStaleness [("/tmp/a.jsonl", ⟨1000, 900, 3⟩)] "/tmp/a.jsonl" 1300
  exact ⟨h.1, h.2.2 ⟨1000, 900, 3⟩ rfl⟩

theorem filter_map_length {α β : Type} (f : α → β) (p : β → Bool) (l : List α) :
    ((l.map f).filter p).length = (l.filter (fun a => p (f a))).length := by
  induction l with
  | nil => rfl
  | cons a l ih =>
    by_cases h : p (f a) <;> simp [h, ih]

theorem length_filter_beq_range (cnt t : Nat) (h : t < cnt) :
    ((List.range cnt).filter (fun j => j == t)).length = 1 := by
  induction cnt with
  | zero => omega
  | succ n ih =>
    rw [List.range_succ, List.filter_append, List.length_append]
    by_cases ht : t = n
    · subst ht
      have hnil : (List.range t).filter (fun j => j == t) = [] := by
        rw [List.filter_eq_nil_iff]
        intro a ha
        rw [List.mem_range] at ha
        simp [Nat.ne_of_lt ha]
      rw [hnil]
      simp
    · have h2 : t < n := by omega
      have hnil : ([n].filter (fun j => j == t)) = [] := by
        simp only [List.filter_cons, List.filter_nil]
        rw [if_neg (by simp only [beq_iff_eq]; omega)]
      rw [ih h2, hnil]
      rfl

/-- C8: for a file with N non-blank lines and 0 ≤ context, a target line
inside 1..N yields exactly min(N, line+context) - max(1, line-context) + 1
content lines (the output has them plus two header lines and two rules),
exactly one of which carries the '>' marker; a target line outside 1..N
fails with the out-of-range error naming the range 1..N. -/
theorem C8_viewSessionLine (path content : String) (line context : Int)
    (hk : 0 ≤ context) :
    (1 ≤ line → line ≤ ((nonBlankLines content).length : Int) →
      ∃ out, viewSessionLineOutput path content line context = Except.ok out ∧
        (out.length : Int)
          = (min ((nonBlankLines content).length : Int) (line + context)
              - max 1 (line - context) + 1) + 4 ∧
        ((viewSessionEntries (nonBlankLines content) line context).filter
          (fun e => e.1 == ">")).length = 1) ∧
    (line < 1 ∨ ((nonBlankLines content).length : Int) < line →
      viewSessionLineOutput path content line context
        = Except.error ("Line number must be between 1 and "
            ++ toString (nonBlankLines content).length)) := by
  constructor
  · intro h1 h2
    have hcond : ¬(line < 1 ∨ ((nonBlankLines content).length : Int) < line) := by
      push_neg
      exact ⟨h1, h2⟩
    have hs : max 1 (line - context) ≤ line := max_le h1 (by omega)
    have he : line ≤ min ((nonBlankLines content).length : Int) (line + context) :=
      le_min h2 (by omega)
    refine ⟨_, by rw [viewSessionLineOutput, if_neg hcond], ?_, ?_⟩
    · simp only [viewSessionEntries, List.length_append, List.length_map,
        List.length_cons, List.length_nil, List.length_range]
      omega
    · unfold viewSessionEntries
      rw [filter_map_length]
      have hcongr : ∀ j ∈ List.range (min ((nonBlankLines content).length : Int)
          (line + context) - max 1 (line - context) + 1).toNat,
          ((fun (j : Nat) =>
            ((if (max 1 (line - context) + (j : Int)) == line then ">" else " ",
              padStart5 (toString (max 1 (line - context) + (j : Int))) ++ " | "
                ++ (nonBlankLines content).getD
                    ((max 1 (line - context) + (j : Int)) - 1).toNat "").1 == ">")) j)
            = ((fun (j : Nat) => j == (line - max 1 (line - context)).toNat) j) := by
        intro j hj
        dsimp only
        by_cases hc : (max 1 (line - context) + (j : Int)) = line
        · rw [if_pos (beq_iff_eq.2 hc)]
          have hjt : j = (line - max 1 (line - context)).toNat := by omega
          rw [show ((">" : String) == ">") = true from rfl,
            show (j == (line - max 1 (line - context)).toNat) = true from beq_iff_eq.2 hjt]
        · rw [if_neg (by simp only [beq_iff_eq]; exact hc)]
          have hjt : j ≠ (line - max 1 (line - context)).toNat := by omega
          rw [show ((" " : String) == ">") = false from rfl]
          rw [show (j == (line - max 1 (line - context)).toNat) = false from
            by simp only [beq_eq_false_iff_ne, ne_eq]; exact hjt]
      rw [List.filter_congr hcongr]
      apply length_filter_beq_range
      omega
  · intro h
    rw [viewSessionLineOutput, if_pos h]

/-- C8 witness: a five-line file viewed at line 3 with context 1 produces
3 content lines with one marker, and line 9 is rejected naming 1..5. -/
theorem C8_witness :
    (∃ out, viewSessionLineOutput "/tmp/s.jsonl" "a\nb\nc\nd\ne" 3 1 = Except.ok out ∧
      (out.length : Int)
        = (min ((nonBlankLines "a\nb\nc\nd\ne").length : Int) (3 + 1) - max 1 (3 - 1) + 1) + 4 ∧
      ((viewSessionEntries (nonBlankLines "a\nb\nc\nd\ne") 3 1).filter
        (fun e => e.1 == ">")).length = 1) ∧
    viewSessionLineOutput "/tmp/s.jsonl" "a\nb\nc\nd\ne" 9 1
      = Except.error ("Line number must be between 1 and "
          ++ toString (nonBlankLines "a\nb\nc\nd\ne").length) := by
  constructor
  · exact (C8_viewSessionLine "/tmp/s.jsonl" "a\nb\nc\nd\ne" 3 1 (by omega)).1
      (by omega) (by decide)
  · exact (C8_viewSessionLine "/tmp/s.jsonl" "a\nb\nc\nd\ne" 9 1 (by omega)).2
      (by decide)

/-- C5 counterexample: a JSONL batch with one well-formed record, a blank
line, and one malformed line.  importMemories throws
"Invalid JSON in JSONL: ..." and imports nothing — the well-formed
record is NOT imported and no per-line error entry is produced —
refuting the claim that malformed lines never abort the batch. -/
theorem C5_counterexample :
    importMemoriesRun c5Host []
        ("\x7b\x22id\x22:\x22m1\x22,\x22information\x22:\x22hello\x22,\x22created_at\x22:\x22t1\x22\x7d\n\n\x7boops")
        true
      = (Except.error "Invalid JSON in JSONL: Unexpected token", []) := by
  rfl

/-- C5 (amended): blank lines are skipped, and a record whose import
throws (missing id) only adds an error entry while the loop continues —
but when any line is malformed JSON, parseMemoryJSONL throws and
importMemories aborts the whole batch with that error, leaving the
database unchanged and importing nothing; only when every non-blank line
parses does the import run (and then it never throws). -/
theorem C5_amended (host : JsonHost) (st : List (String × MemRow)) (jsonl : String)
    (skipExisting : Bool) :
    (∀ e, parseMemoryJSONL host jsonl = Except.error e →
      importMemoriesRun host st jsonl skipExisting = (Except.error e, st)) ∧
    (∀ ms, parseMemoryJSONL host jsonl = Except.ok ms →
      ∃ r st2, importMemoriesRun host st jsonl skipExisting = (Except.ok r, st2)) ∧
    (∀ ls, parseJSONLLines host ls
        = parseJSONLLines host (ls.filter (fun l => jsTrim l != ""))) ∧
    (∀ m rest st2 r, jsTrim m.id = "" →
      importLoop host skipExisting (m :: rest) st2 r
        = importLoop host skipExisting rest st2
            { r with errors := r.errors ++ [(m.id, "Memory ID is required")] }) := by
  refine ⟨?_, ?_, ?_, ?_⟩
  · intro e he
    unfold importMemoriesRun
    rw [he]
  · intro ms hms
    unfold importMemoriesRun
    rw [hms]
    exact ⟨_, _, rfl⟩
  · intro ls
    induction ls with
    | nil => rfl
    | cons l rest ih =>
      by_cases hb : jsTrim l = ""
      · simp [parseJSONLLines, List.filter_cons, hb, ih]
      · cases hp : host.parseExport (jsTrim l) with
        | ok m => simp [parseJSONLLines, List.filter_cons, hb, hp, ih]
        | error err => simp [parseJSONLLines, List.filter_cons, hb, hp]
  · intro m rest st2 r hid
    have hsingle : importSingleMemory host st2 m skipExisting
        = Except.error "Memory ID is required" := by
      unfold importSingleMemory
      rw [if_pos (beq_iff_eq.2 hid)]
    simp [importLoop, hsingle]

/-- C5 witness: C5_amended applied to the concrete host on a single
malformed line, discharging the parse-error hypothesis by rfl. -/
theorem C5_witness :
    importMemoriesRun c5Host [] "\x7boops" true
      = (Except.error "Invalid JSON in JSONL: Unexpected token", []) :=
  (C5_amended c5Host [] "\x7boops" true).1
    "Invalid JSON in JSONL: Unexpected token" rfl

/-- C9: storing onto an existing memory id inside the store transaction
updates exactly content, metadata, collection, and confidence of that
memories row, preserves its stored created_at, replaces its embedding
row, and leaves every other row of both tables untouched; when either
write fails, the transaction rolls back and neither table changes. -/
theorem C9_store_upsert (fail : StoreFail) (st : MemState) (m : MemoryV)
    (embedding : List ℚ) (old : MemRow) (hold : alookup st.memories m.id = some old) :
    (fail = StoreFail.noFail →
      alookup (MemoryStore.store fail st m embedding).2.memories m.id
          = some { content := m.content, metadata := m.metadata,
                   collection := m.collection, created_at := old.created_at,
                   confidence := m.confidence.getD (7 / 10) } ∧
      alookup (MemoryStore.store fail st m embedding).2.memory_embeddings m.id
          = some embedding ∧
      (∀ k, k ≠ m.id →
        alookup (MemoryStore.store fail st m embedding).2.memories k
          = alookup st.memories k) ∧
      (∀ k, k ≠ m.id →
        alookup (MemoryStore.store fail st m embedding).2.memory_embeddings k
          = alookup st.memory_embeddings k)) ∧
    (fail ≠ StoreFail.noFail →
      (∃ e, (MemoryStore.store fail st m embedding).1 = Except.error e) ∧
      (MemoryStore.store fail st m embedding).2 = st) := by
  constructor
  · intro hf
    subst hf
    refine ⟨?_, ?_, ?_, ?_⟩
    · exact alookup_aupdate_self_some st.memories m.id _ _ old hold
    · exact alookup_aupsert_self st.memory_embeddings m.id embedding
    · intro k hk
      exact alookup_aupdate_ne st.memories m.id k _ _ hk
    · intro k hk
      exact alookup_aupsert_ne st.memory_embeddings m.id k embedding hk
  · intro hf
    cases fail with
    | noFail => exact absurd rfl hf
    | failMemories => exact ⟨⟨"memories insert failed", rfl⟩, rfl⟩
    | failEmbeddings => exact ⟨⟨"embeddings insert failed", rfl⟩, rfl⟩

/-- C9 witness: C9_store_upsert at a concrete one-row state, both for the
committed upsert and for a failing second write. -/
theorem C9_witness :
    alookup (MemoryStore.store StoreFail.noFail
        ⟨[("m1", ⟨"old", [], "default", "2024-01-01", 1 / 2⟩)], [("m1", [1, 2])]⟩
        ⟨"m1", "new", [("k", MetaField.str "v")], "notes", "2025-06-01", none⟩
        [3]).2.memories "m1"
      = some { content := "new", metadata := [("k", MetaField.str "v")],
               collection := "notes", created_at := "2024-01-01",
               confidence := (7 : ℚ) / 10 } ∧
    alookup (MemoryStore.store StoreFail.noFail
        ⟨[("m1", ⟨"old", [], "default", "2024-01-01", 1 / 2⟩)], [("m1", [1, 2])]⟩
        ⟨"m1", "new", [("k", MetaField.str "v")], "notes", "2025-06-01", none⟩
        [3]).2.memory_embeddings "m1" = some [3] ∧
    (MemoryStore.store StoreFail.failEmbeddings
        ⟨[("m1", ⟨"old", [], "default", "2024-01-01", 1 / 2⟩)], [("m1", [1, 2])]⟩
        ⟨"m1", "new", [("k", MetaField.str "v")], "notes", "2025-06-01", none⟩
        [3]).2
      = ⟨[("m1", ⟨"old", [], "default", "2024-01-01", 1 / 2⟩)], [("m1", [1, 2])]⟩ := by
  have h1 := C9_store_upsert StoreFail.noFail
    ⟨[("m1", ⟨"old", [], "default", "2024-01-01", 1 / 2⟩)], [("m1", [1, 2])]⟩
    ⟨"m1", "new", [("k", MetaField.str "v")], "notes", "2025-06-01", none⟩
    [3] ⟨"old", [], "default", "2024-01-01", 1 / 2⟩ rfl
  have h2 := C9_store_upsert StoreFail.failEmbeddings
    ⟨[("m1", ⟨"old", [], "default", "2024-01-01", 1 / 2⟩)], [("m1", [1, 2])]⟩
    ⟨"m1", "new", [("k", MetaField.str "v")], "notes", "2025-06-01", none⟩
    [3] ⟨"old", [], "default", "2024-01-01", 1 / 2⟩ rfl
  exact ⟨(h1.1 rfl).1, (h1.1 rfl).2.1, (h2.2 (by simp)).2⟩

/-- C10: when embedding generation fails, the adapter store throws the
embedder error before touching the database — both tables are unchanged,
so the memory is not findable afterwards by any search; find, by
contrast, does not throw on embedder failure: it degrades to full-text
search results (decayed and sorted as usual). -/
theorem C10_store_embedder_failure (host : JsonHost) (dbFail : StoreFail)
    (newId createdAt : String) (st : MemState) (information : String)
    (opts : StoreOptions) (meta0 : Meta)
    (hmeta : adapterParseMeta host opts.metadata = Except.ok meta0) :
    adapterStore host none dbFail newId createdAt st information opts
      = (Except.error
          "Failed to generate embedding. Ensure Ollama is running and model is available.",
         st) ∧
    (∀ o now query fopts, fopts.fts = false →
      adapterFind o none now
          (adapterStore host none dbFail newId createdAt st information opts).2 query fopts
        = findPostProcess now fopts.expand
            (ftsSearch o st query fopts.limit fopts.collection)) := by
  have hstore : adapterStore host none dbFail newId createdAt st information opts
      = (Except.error
          "Failed to generate embedding. Ensure Ollama is running and model is available.",
         st) := by
    unfold adapterStore
    rw [hmeta]
    rfl
  refine ⟨hstore, ?_⟩
  intro o now query fopts hfts
  rw [hstore]
  unfold adapterFind
  rw [hfts]
  rfl

/-- C10 witness: C10_store_embedder_failure at a concrete empty store and
empty options, with the metadata hypothesis discharged by rfl. -/
theorem C10_witness :
    adapterStore c5Host none StoreFail.noFail "mem-1" "2025-06-01" ⟨[], []⟩ "info"
        ⟨none, none, none⟩
      = (Except.error
          "Failed to generate embedding. Ensure Ollama is running and model is available.",
         ⟨[], []⟩) :=
  (C10_store_embedder_failure c5Host StoreFail.noFail "mem-1" "2025-06-01" ⟨[], []⟩
    "info" ⟨none, none, none⟩ [] rfl).1

theorem c6_decay_fresh (now : ℝ) : calculateDecayFactor now now = 1 := by
  unfold calculateDecayFactor
  rw [show (now - now) / (1000 * 60 * 60 * 24) / 90 = (0 : ℝ) by rw [sub_self]; norm_num]
  exact Real.rpow_zero _

theorem c6_decay_old (now : ℝ) :
    calculateDecayFactor now (now - 180 * 86400000) = 1 / 4 := by
  unfold calculateDecayFactor
  rw [show (now - (now - 180 * 86400000)) / (1000 * 60 * 60 * 24) / 90 = (2 : ℝ) by
    rw [sub_sub_cancel]; norm_num]
  rw [Real.rpow_two]
  norm_num

theorem c6_vectorSearch (now : ℝ) :
    vectorSearch (c6Oracle now) c6State [1] 10 ((3 : ℝ) / 10) none
      = [{ memory :=
             { id := "B", content := "same content", metadata := [],
               collection := "default", createdAt := now - 180 * 86400000,
               confidence := 7 / 10 },
           score := 1 - 0, matchType := "vector" },
         { memory :=
             { id := "A", content := "same content", metadata := [],
               collection := "default", createdAt := now, confidence := 7 / 10 },
           score := 1 - 0, matchType := "vector" }] := by
  have hth : ((3 : ℝ) / 10 ≤ 1 - 0) := by norm_num
  have hth1 : ((3 : ℝ) / 10 ≤ 1) := by norm_num
  have hne : ¬("dateOld" = "dateFresh") := by decide
  unfold vectorSearch c6State c6Oracle parseMemoryRow c6RowOld c6RowFresh
  simp [alookup, List.find?, List.filterMap_cons, List.filter_cons, hth, hth1, hne,
    List.insertionSort, List.orderedInsert]

/-- C6: find applies the 0.5^(age_days/90) decay to every result and
re-sorts by decayed score descending — the decayed/sorted output of find
is always non-increasing in score — and on the concrete scenario of two
memories with identical raw vector score 1.0, one created now and one
created 180 days ago, the fresh memory keeps decayed score 1.0, the old
one decays to 0.25, and the fresh one is ordered first. -/
theorem C6_find_decay (now : ℝ) :
    (∀ results, List.Sorted (fun a b : SearchResult => b.score ≤ a.score)
        (sortByScoreDesc results)) ∧
    adapterFind (c6Oracle now) (some [1]) now c6State "same content"
        { limit := 10, collection := none, expand := true, fts := false }
      = [{ memory :=
             { id := "A", content := "same content", metadata := [],
               collection := "default", createdAt := now, confidence := 7 / 10 },
           score := 1, matchType := "vector" },
         { memory :=
             { id := "B", content := "same content", metadata := [],
               collection := "default", createdAt := now - 180 * 86400000,
               confidence := 7 / 10 },
           score := 1 / 4, matchType := "vector" }] := by
  constructor
  · intro results
    exact List.sorted_insertionSort _ results
  · show findPostProcess now true
      (vectorSearch (c6Oracle now) c6State [1] 10 ((3 : ℝ) / 10) none) = _
    rw [c6_vectorSearch]
    show sortByScoreDesc (applyDecay now _) = _
    unfold applyDecay
    simp only [List.map_cons, List.map_nil]
    rw [c6_decay_fresh, c6_decay_old]
    have hns : ¬(((1 : ℝ) - 0) * 1 ≤ ((1 : ℝ) - 0) * (1 / 4)) := by norm_num
    unfold sortByScoreDesc
    simp [List.insertionSort, List.orderedInsert, hns]
    norm_num
